import Mathlib

/-!
Verification of `convert_eprime.py` (E-Prime log to csv converter).

The Python source is shallowly embedded below.  Lists model Python lists,
`String` models Python strings, `Except PyError` models raised exceptions.
Python's in-place mutation of `data_matrix[i_col]` is modelled by explicit
state passing; slice assignment `l[a:b] = xs` becomes `setSlice`.
Names follow the source (leading underscores dropped).
-/

deriving instance DecidableEq for Except

namespace ConvertEprime

/-- Python exceptions raised by the program: `ValueError` (also used for the
"format error" on mismatched LogFrame markers, bad file extensions and
failed `str.index`/`list.index` calls) and `IndexError` (out-of-range
subscript such as `start_index[0]` on an empty list). -/
inductive PyError where
  | valueError (msg : String)
  | indexError
deriving DecidableEq

/-- Does `hay` start with `needle` (on character lists)? -/
def startsWithL : List Char → List Char → Bool
  | _, [] => true
  | [], _ :: _ => false
  | a :: hs, b :: ns => a == b && startsWithL hs ns

/-- Substring test on character lists: Python's `needle in hay`. -/
def containsL : List Char → List Char → Bool
  | [], needle => needle.isEmpty
  | h :: t, needle => startsWithL (h :: t) needle || containsL t needle

/-- Python's `sub in hay` for strings. -/
def strContains (hay sub : String) : Bool :=
  containsL hay.data sub.data

/-- First index of `needle` in the remaining character list, counting from
`k`; `none` when absent.  Models Python `str.index` (which raises
`ValueError` when absent). -/
def indexOfSubAux (needle : List Char) : List Char → Nat → Option Nat
  | [], k => if needle.isEmpty then some k else none
  | h :: t, k =>
    if startsWithL (h :: t) needle then some k else indexOfSubAux needle t (k + 1)

/-- Python `hay.index(sub)` as an `Option`. -/
def strIndexSub (hay sub : String) : Option Nat :=
  indexOfSubAux sub.data hay.data 0

/-- Python string repetition `s * n`. -/
def strRepeat (s : String) (n : Nat) : String :=
  String.mk (List.flatten (List.replicate n s.data))

/-- `_strip`: keeps only characters with 31 < codepoint < 127. -/
def strip (s : String) : String :=
  String.mk (s.data.filter (fun c => decide (31 < c.toNat) && decide (c.toNat < 127)))

def startMarker : String := "*** LogFrame Start ***"

def endMarker : String := "*** LogFrame End ***"

/-- Positions of the lines equal to `target`:
`[i_row for i_row, row in enumerate(lines) if row == target]`.
(Modelled over indices `i < lines.length` read back with `getD`.) -/
def idxsOf (target : String) (lines : List String) : List Nat :=
  (List.range lines.length).filter (fun i => lines.getD i "" == target)

/-- Marker validation and block segmentation shared verbatim by
`text_to_csv` (lines 105-119) and `text_to_rcsv` (lines 191-205):
computes `start_index` and `end_index`, raises
`ValueError("LogFrame Starts and Ends do not match up.")` when the counts
differ or the first start is not strictly before the first end, and
otherwise slices `filtered[start+1:end]` for each pair.  Python evaluates
`len(start_index) != len(end_index) or start_index[0] >= end_index[0]`
left to right, so with equal counts of zero the subscript `start_index[0]`
raises `IndexError` before anything else. -/
def segment (filtered : List String) : Except PyError (List (List String)) :=
  if (idxsOf startMarker filtered).length ≠ (idxsOf endMarker filtered).length then
    .error (.valueError "LogFrame Starts and Ends do not match up.")
  else
    match idxsOf startMarker filtered, idxsOf endMarker filtered with
    | s0 :: _, e0 :: _ =>
      if e0 ≤ s0 then .error (.valueError "LogFrame Starts and Ends do not match up.")
      else .ok (((idxsOf startMarker filtered).zip (idxsOf endMarker filtered)).map
        (fun p => (filtered.drop (p.1 + 1)).take (p.2 - (p.1 + 1))))
    | _, _ => .error .indexError

/-- One pass of the loop body of `_merge_lists` (lines 338-344): under
`"all_null"` a row becomes the current column's value when that value is
`"NULL"`, otherwise keeps the accumulated value; under `"all_else"` the
roles are swapped; any other option leaves the accumulation unchanged. -/
def merge_step (opt : String) (merged cur : List String) : List String :=
  if opt = "all_null" then
    (List.range merged.length).map
      (fun i => if cur.getD i "" = "NULL" then cur.getD i "" else merged.getD i "")
  else if opt = "all_else" then
    (List.range merged.length).map
      (fun i => if cur.getD i "" ≠ "NULL" then cur.getD i "" else merged.getD i "")
  else merged

/-- `_merge_lists` on a list of columns (the `type(lists[0]) == list` case,
the one exercised by the program): starts from `lists[0]` and folds the
loop body over every source column, the first one included. -/
def merge_lists (lists : List (List String)) (opt : String) : List String :=
  lists.foldl (merge_step opt) (lists.headD [])

/-- Splits a block line on the first `": "` into (name, value):
`idx = line.index(": "); (line[:idx], line[idx+2:])`.  Absence of the
separator raises `ValueError` (from `str.index`). -/
def splitField (line : String) : Except PyError (String × String) :=
  match strIndexSub line ": " with
  | none => .error (.valueError "substring not found")
  | some k => .ok (String.mk (line.data.take k), String.mk (line.data.drop (k + 2)))

/-- `all_headers`: field names of every line of every block, rows first,
in order (lines 114-122 / 200-208). -/
def allHeaders (blocks : List (List String)) : Except PyError (List String) :=
  blocks.flatten.mapM (fun line => (splitField line).map (fun p => p.1))

def uniqueAux : List String → List String → List String
  | [], _ => []
  | h :: t, seen => if seen.contains h then uniqueAux t seen else h :: uniqueAux t (h :: seen)

/-- `unique_headers = list(set(all_headers))`.  Python's set iteration
order is unspecified; we fix the deterministic first-occurrence order
(any fixed order is faithful, and no claim depends on it). -/
def uniqueKeepFirst (l : List String) : List String := uniqueAux l []

/-- `null_col = ["NULL"] * (n_blocks+1)`; one copy per header, and
`data_matrix[i_col][0] = unique_headers[i_col]` (lines 126-133). -/
def initMatrix (uh : List String) (nBlocks : Nat) : List (List String) :=
  (List.range uh.length).map
    (fun k => (List.replicate (nBlocks + 1) "NULL").set 0 (uh.getD k ""))

/-- `data_matrix[k][r] = v` (in-place cell write, modelled functionally). -/
def setCell (dm : List (List String)) (k r : Nat) (v : String) : List (List String) :=
  dm.set k ((dm.getD k []).set r v)

/-- The triple loop of lines 135-143 / 221-229: for each block row `i`,
each line of the block, and each header index `k`, write the line's value
into column `k` at row `i+1` when the line's name equals header `k`. -/
def fillCells (uh : List String) (blocks : List (List String))
    (dm0 : List (List String)) : Except PyError (List (List String)) :=
  blocks.enum.foldlM
    (fun dm p =>
      p.2.foldlM
        (fun dm line => do
          let nv ← splitField line
          return (List.range uh.length).foldl
            (fun dm k => if uh.getD k "" = nv.1 then setCell dm k (p.1 + 1) nv.2 else dm)
            dm)
        dm)
    dm0

/-- Python slice assignment `l[a:b] = repl` for `0 ≤ a`: keep the first
`a` cells, splice in `repl`, keep everything from position `max a b` on. -/
def setSlice (l : List α) (a b : Nat) (repl : List α) : List α :=
  l.take a ++ repl ++ l.drop (max a b)

/-- `rows_w_vals`: positions of the cells (header included) that differ
from the null sentinel `"NULL"` (lines 148-149 / 235-236). -/
def rowsWithVals (col : List String) : List Nat :=
  (List.range col.length).filter (fun j => col.getD j "" != "NULL")

/-- Per-column fill of `text_to_csv` (lines 147-154): Policy A only, with
the trailing value required at the very last row; then the trailing
two-slot truncation `col[:len(col)-2]`. -/
def fillColumn_csv (col : List String) : List String :=
  let rw := rowsWithVals col
  let L := col.length
  let col1 :=
    if rw.length = 2 ∧ rw.getD 1 0 = L - 1 then
      setSlice col 1 L (List.replicate (L - 1) (col.getD (rw.getD 1 0) ""))
    else col
  col1.take (col1.length - 2)

/-- Iterating a Python string yields its one-character pieces; slice
assignment of a string therefore writes one cell per character. -/
def pyCharCells (s : String) : List String :=
  s.data.map (fun c => String.mk [c])

/-- The block-fill loop of `text_to_rcsv` (lines 240-244).  `rows_w_vals`
is fixed from the original column, but `col` aliases
`data_matrix[i_col]`, so each step reads `col[rows_w_vals[null_row]]`
from the *current* state.  `col[...] * n_rows_to_fill` is *string*
repetition, and the slice assignment splices in its characters. -/
def fillBlockLoop (rw : List Nat) (col0 : List String) : List String :=
  (List.range' 1 (rw.length - 1)).foldl
    (fun c k =>
      let first := rw.getD (k - 1) 0 + 1
      let last := rw.getD k 0
      let n := last - first
      let v := c.getD (rw.getD k 0) ""
      setSlice c first last (pyCharCells (strRepeat v n)))
    col0

/-- The loop body of `fillBlockLoop` (lines 241-244) as a named function
(definitionally the lambda above with its `let`s inlined), so the fold
can be reasoned about step by step: the slice bounds and the row count
come from the fixed `rows_w_vals`, the filled value is read from the
*current* column state. -/
def fillStep (rw : List Nat) (c : List String) (k : Nat) : List String :=
  setSlice c (rw.getD (k - 1) 0 + 1) (rw.getD k 0)
    (pyCharCells (strRepeat (c.getD (rw.getD k 0) "")
      (rw.getD k 0 - (rw.getD (k - 1) 0 + 1))))

/-- Per-column fill of `text_to_rcsv` (lines 234-246): Policy A (trailing
non-null at the last or second-to-last row), else Policy B (block fill)
when the header contains a configured `fill_block` fragment; then the
trailing two-slot truncation `col[:len(col)-2]` on the mutated column. -/
def fillColumn (fill_block : List String) (col : List String) : List String :=
  let rw := rowsWithVals col
  let L := col.length
  let col1 :=
    if rw.length = 2 ∧ (rw.getD 1 0 = L - 1 ∨ rw.getD 1 0 = L - 2) then
      setSlice col 1 L (List.replicate (L - 1) (col.getD (rw.getD 1 0) ""))
    else if fill_block.any (fun h => strContains (col.headD "") h) then
      fillBlockLoop rw col
    else col
  col1.take (col1.length - 2)

/-- The column-fill stage of `text_to_rcsv` applied to the whole matrix
(each column is processed independently). -/
def fillStage (fill_block : List String) (dm : List (List String)) : List (List String) :=
  dm.map (fillColumn fill_block)

/-- `_transpose` (lines 355-361): column `c` of the result collects cell
`c` of every row of the input; empty rows of the result are filtered out. -/
def transpose (l : List (List String)) : List (List String) :=
  ((List.range (l.headD []).length).map (fun c => l.map (fun row => row.getD c "")))
    |>.filter (fun col => !col.isEmpty)

/-- `text_to_csv` (lines 91-157) up to the table actually written out:
sanitize, segment, discover headers, build the dense NULL-prefilled
matrix, fill cells from the blocks, apply the per-column Policy-A fill
and two-slot truncation, transpose. -/
def text_to_csv_matrix (text_data : List String) : Except PyError (List (List String)) := do
  let filtered := text_data.map strip
  let blocks ← segment filtered
  let ah ← allHeaders blocks
  let uh := uniqueKeepFirst ah
  let dm0 := initMatrix uh blocks.length
  let dm1 ← fillCells uh blocks dm0
  let dm2 := dm1.map fillColumn_csv
  return transpose dm2

/-- Python `list.pop(i)`: remove the element at index `i`. -/
def popAt : List α → Nat → List α
  | [], _ => []
  | _ :: t, 0 => t
  | h :: t, n + 1 => h :: popAt t n

/-- `null_index` (lines 289-290): the rows at which the merged
null-indicator equals `"NULL"`, sorted descending (`sorted(...,
reverse=True)` of an ascending enumeration is its reverse). -/
def null_index (m : List String) : List Nat :=
  ((List.range m.length).filter (fun i => m.getD i "" == "NULL")).reverse

/-- Line 291: `[out_matrix.pop(null_row) for null_row in null_index]` —
sequentially pop the descending null indices from the output matrix. -/
def pruneRows (M : List α) (m : List String) : List α :=
  (null_index m).foldl (fun acc i => popAt acc i) M

/-- Python `list.index(v)`: first position of `v`, `none` when absent
(Python raises `ValueError`). -/
def list_index : List String → String → Option Nat
  | [], _ => none
  | h :: t, v => if h = v then some 0 else (list_index t v).map (· + 1)

/-- Line 259 of `text_to_rcsv`:
`[t_data_matrix[0].index(header) for header in header_list]` — the
comprehension raises `ValueError` (carrying the name) at the first
desired header absent from the renamed header row. -/
def header_index_rcsv (row : List String) : List String → Except PyError (List Nat)
  | [] => .ok []
  | hed :: rest =>
    match list_index row hed with
    | none => .error (.valueError hed)
    | some i =>
      match header_index_rcsv row rest with
      | .error e => .error e
      | .ok is => .ok (i :: is)

/-- `_try_index` (lines 364-372): `list.index` with every exception
caught; Python prints the missing value and returns `None`. -/
def try_index (row : List String) (v : String) : Option Nat :=
  list_index row v

/-- Lines 56-57 of `etext_to_rcsv`: keep, in order, the `_try_index`
results of the desired headers that are not `None`. -/
def header_index_etext (row : List String) (header_list : List String) : List Nat :=
  header_list.filterMap (fun hed => try_index row hed)

/-- Index of the last occurrence of `c` in a character list. -/
def lastIdxOf (c : Char) : List Char → Option Nat
  | [] => none
  | h :: t =>
    match lastIdxOf c t with
    | some k => some (k + 1)
    | none => if h == c then some 0 else none

/-- `os.path.splitext` (posix): split at the last `.` that lies after the
last `/` and has at least one non-dot character before it within the
basename (so dotfiles such as `".csv"` have no extension). -/
def splitext (p : String) : String × String :=
  let cs := p.data
  match lastIdxOf '.' cs with
  | none => (p, "")
  | some d =>
    let fStart := match lastIdxOf '/' cs with
      | none => 0
      | some k => k + 1
    if fStart ≤ d ∧ ((cs.drop fStart).take (d - fStart)).any (fun ch => ch != '.') then
      (String.mk (cs.take d), String.mk (cs.drop d))
    else (p, "")

/-- `_det_file_type` (lines 308-324): delimiter and number of header
lines to remove, from the extension; `ValueError` otherwise (with a
dedicated message for the empty filename). -/
def det_file_type (in_file : String) : Except PyError (String × Nat) :=
  if (splitext in_file).2 = ".csv" then .ok (",", 0)
  else if (splitext in_file).2 = ".txt" then .ok ("\t", 3)
  else if in_file.length = 0 then .error (.valueError "Input file name is empty.")
  else .error (.valueError "Input file name is not .csv or .txt.")

/-- All columns of a matrix have the same number of cells. -/
def uniformLens (dm : List (List String)) : Bool :=
  dm.all (fun c => c.length == (dm.headD []).length)

/-- Correct nesting of marker positions: equal counts, each start
strictly before its end, each end strictly before the next start. -/
def wellNested (s e : List Nat) : Prop :=
  s.length = e.length ∧
  (∀ i, i < s.length → s.getD i 0 < e.getD i 0) ∧
  (∀ i, i < s.length - 1 → e.getD i 0 < s.getD (i + 1) 0)

/-- The value, at row `i`, of the last source column that is non-null at
`i` (`none` when every source is null there). -/
def lastNonNullAt (lists : List (List String)) (i : Nat) : Option String :=
  (lists.filterMap
    (fun c => if c.getD i "" = "NULL" then none else some (c.getD i ""))).getLast?

/-! ### Claim C1 — block-fill (Policy B) -/

/-- Claim C1 is false as stated: in the block-fill of `text_to_rcsv`, the
header cell counts as a non-null position, so for the fill-block column
`["NAME","NULL","A","NULL","NULL","B"]` the row before `"A"` is
overwritten with `"A"` instead of remaining `"NULL"`. -/
theorem fillColumn_before_first_value_not_null :
    (fillColumn ["NAME"] ["NAME", "NULL", "A", "NULL", "NULL", "B"]).getD 1 "" ≠ "NULL" := by
  decide

/-- `fillBlockLoop` is the fold of the named `fillStep` over
`range(1, len(rows_w_vals))`. -/
theorem fillBlockLoop_eq_foldl (rw : List Nat) (col0 : List String) :
    fillBlockLoop rw col0 = (List.range' 1 (rw.length - 1)).foldl (fillStep rw) col0 := rfl

/-- A slice assignment of matching size keeps the list length. -/
theorem setSlice_length (l : List α) (a b : Nat) (repl : List α)
    (hab : a ≤ b) (hb : b ≤ l.length) (hr : repl.length = b - a) :
    (setSlice l a b repl).length = l.length := by
  unfold setSlice
  rw [Nat.max_eq_right hab, List.length_append, List.length_append,
    List.length_take, List.length_drop, hr]
  omega

/-- Cells left of the assigned slice are unchanged. -/
theorem setSlice_getD_lt (l : List α) (a b : Nat) (repl : List α) (j : Nat) (d : α)
    (hab : a ≤ b) (hb : b ≤ l.length) (hj : j < a) :
    (setSlice l a b repl).getD j d = l.getD j d := by
  unfold setSlice
  have hta : (List.take a l).length = a := by rw [List.length_take]; omega
  simp only [List.getD_eq_getElem?_getD]
  rw [Nat.max_eq_right hab, List.getElem?_append,
    if_pos (show j < (List.take a l ++ repl).length by rw [List.length_append, hta]; omega),
    List.getElem?_append, if_pos (by rw [hta]; omega),
    List.getElem?_take_of_lt hj]

/-- Cells inside the assigned slice come from the replacement. -/
theorem setSlice_getD_mid (l : List α) (a b : Nat) (repl : List α) (j : Nat) (d : α)
    (hab : a ≤ b) (hb : b ≤ l.length) (haj : a ≤ j) (hjb : j < b)
    (hr : repl.length = b - a) :
    (setSlice l a b repl).getD j d = repl.getD (j - a) d := by
  unfold setSlice
  have hta : (List.take a l).length = a := by rw [List.length_take]; omega
  simp only [List.getD_eq_getElem?_getD]
  rw [Nat.max_eq_right hab, List.getElem?_append,
    if_pos (show j < (List.take a l ++ repl).length by
      rw [List.length_append, hta, hr]; omega),
    List.getElem?_append, if_neg (show ¬j < (List.take a l).length by rw [hta]; omega),
    hta]

/-- Cells right of a size-preserving slice assignment are unchanged. -/
theorem setSlice_getD_ge (l : List α) (a b : Nat) (repl : List α) (j : Nat) (d : α)
    (hab : a ≤ b) (hb : b ≤ l.length) (hbj : b ≤ j) (hr : repl.length = b - a) :
    (setSlice l a b repl).getD j d = l.getD j d := by
  unfold setSlice
  have hlb : (List.take a l ++ repl).length = b := by
    rw [List.length_append, List.length_take, hr]; omega
  simp only [List.getD_eq_getElem?_getD]
  rw [Nat.max_eq_right hab, List.getElem?_append,
    if_neg (show ¬j < (List.take a l ++ repl).length by rw [hlb]; omega),
    hlb, List.getElem?_drop, Nat.add_sub_cancel' hbj]

/-- `getD` commutes with `take`, below the cut. -/
theorem getD_take_lt (l : List α) (m j : Nat) (d : α) (hj : j < m) :
    (l.take m).getD j d = l.getD j d := by
  simp only [List.getD_eq_getElem?_getD]
  rw [List.getElem?_take_of_lt hj]

/-- In-range `getD` on `replicate`. -/
theorem getD_replicate_lt (n i : Nat) (x d : α) (hi : i < n) :
    (List.replicate n x).getD i d = x := by
  simp only [List.getD_eq_getElem?_getD]
  rw [List.getElem?_replicate_of_lt hi]
  rfl

/-- Recorded non-null positions are members of `rows_w_vals`. -/
theorem rowsWithVals_getD_mem (col : List String) (k : Nat)
    (hk : k < (rowsWithVals col).length) :
    (rowsWithVals col).getD k 0 ∈ rowsWithVals col := by
  simp only [List.getD_eq_getElem?_getD, List.getElem?_eq_getElem hk, Option.getD_some]
  exact List.getElem_mem hk

/-- Recorded non-null positions lie below the column length. -/
theorem rowsWithVals_lt_length (col : List String) (k : Nat)
    (hk : k < (rowsWithVals col).length) :
    (rowsWithVals col).getD k 0 < col.length := by
  have hmem : (rowsWithVals col).getD k 0
      ∈ (List.range col.length).filter (fun j => col.getD j "" != "NULL") :=
    rowsWithVals_getD_mem col k hk
  exact List.mem_range.mp (List.mem_filter.mp hmem).1

/-- Cells at recorded positions are not the null sentinel. -/
theorem rowsWithVals_ne_null (col : List String) (k : Nat)
    (hk : k < (rowsWithVals col).length) :
    col.getD ((rowsWithVals col).getD k 0) "" ≠ "NULL" := by
  have hmem : (rowsWithVals col).getD k 0
      ∈ (List.range col.length).filter (fun j => col.getD j "" != "NULL") :=
    rowsWithVals_getD_mem col k hk
  have hpred := (List.mem_filter.mp hmem).2
  simpa using hpred

/-- `rows_w_vals` is strictly increasing (a filter of an ascending range). -/
theorem rowsWithVals_mono (col : List String) (a b : Nat) (hab : a < b)
    (hb : b < (rowsWithVals col).length) :
    (rowsWithVals col).getD a 0 < (rowsWithVals col).getD b 0 := by
  have ha : a < (rowsWithVals col).length := lt_trans hab hb
  have hp : (rowsWithVals col).Pairwise (· < ·) :=
    List.Pairwise.filter _ (List.pairwise_lt_range col.length)
  rw [List.pairwise_iff_getElem] at hp
  simp only [List.getD_eq_getElem?_getD, List.getElem?_eq_getElem ha,
    List.getElem?_eq_getElem hb, Option.getD_some]
  exact hp a b ha hb hab

/-- For a one-character value, Python's string repetition spliced
character-by-character is exactly `n` copies of the value itself. -/
theorem pyCharCells_strRepeat_single (v : String) (hv : v.data.length = 1) (n : Nat) :
    pyCharCells (strRepeat v n) = List.replicate n v := by
  obtain ⟨ch, hch⟩ : ∃ ch, v.data = [ch] := by
    cases hd : v.data with
    | nil => rw [hd] at hv; cases hv
    | cons a t =>
      cases t with
      | nil => exact ⟨a, rfl⟩
      | cons b t2 => rw [hd] at hv; simp at hv
  have hfl : List.flatten (List.replicate n [ch]) = List.replicate n ch := by
    induction n with
    | zero => rfl
    | succ m ihm =>
      rw [List.replicate_succ, List.flatten_cons, ihm, List.replicate_succ]
      rfl
  unfold pyCharCells strRepeat
  rw [hch]
  show (List.flatten (List.replicate n [ch])).map (fun c => String.mk [c])
      = List.replicate n v
  rw [hfl, List.map_replicate]
  congr 1
  rw [← hch]

/-- When Policy A's trailing condition fails and a `fill_block` fragment
matches the header, the per-column fill is the block-fill loop followed
by the trailing two-slot truncation on the mutated column. -/
theorem fillColumn_eq_blockfill (fill_block : List String) (col : List String)
    (hA : ¬((rowsWithVals col).length = 2 ∧
      ((rowsWithVals col).getD 1 0 = col.length - 1 ∨
       (rowsWithVals col).getD 1 0 = col.length - 2)))
    (hB : fill_block.any (fun h => strContains (col.headD "") h) = true) :
    fillColumn fill_block col =
      (fillBlockLoop (rowsWithVals col) col).take
        ((fillBlockLoop (rowsWithVals col) col).length - 2) := by
  simp only [fillColumn]
  rw [if_neg hA, if_pos hB]

/-- Invariant of the block-fill fold after its first `t` steps, for a
strictly increasing, in-bounds `rw` whose read positions (index 1 on)
hold one-character values: the length is preserved, cells from position
`rw[t]` on still hold their original values, and every cell strictly
between `rw[k]` and `rw[k+1]` with `k < t` holds the original value at
`rw[k+1]`. -/
theorem fillStep_foldl_spec (col : List String) (rw : List Nat)
    (hmono : ∀ a b, a < b → b < rw.length → rw.getD a 0 < rw.getD b 0)
    (hbound : ∀ a, a < rw.length → rw.getD a 0 < col.length)
    (hchar : ∀ a, 0 < a → a < rw.length → (col.getD (rw.getD a 0) "").data.length = 1)
    (t : Nat) (ht : t < rw.length) :
    ((List.range' 1 t).foldl (fillStep rw) col).length = col.length ∧
    (∀ j, rw.getD t 0 ≤ j →
      ((List.range' 1 t).foldl (fillStep rw) col).getD j "" = col.getD j "") ∧
    (∀ k, k < t → ∀ j, rw.getD k 0 < j → j < rw.getD (k + 1) 0 →
      ((List.range' 1 t).foldl (fillStep rw) col).getD j ""
        = col.getD (rw.getD (k + 1) 0) "") := by
  induction t with
  | zero =>
    exact ⟨rfl, fun j _ => rfl, fun k hk => absurd hk (Nat.not_lt_zero k)⟩
  | succ t ih =>
    have htlt : t < rw.length := Nat.lt_of_succ_lt ht
    obtain ⟨ihlen, ihge, ihgap⟩ := ih htlt
    have hconcat : List.range' 1 (t + 1) = List.range' 1 t ++ [t + 1] := by
      rw [List.range'_1_concat]
      simp [Nat.add_comm]
    have hab : rw.getD t 0 < rw.getD (t + 1) 0 := hmono t (t + 1) (Nat.lt_succ_self t) ht
    have hbl : rw.getD (t + 1) 0 < col.length := hbound (t + 1) ht
    have hread : ((List.range' 1 t).foldl (fillStep rw) col).getD (rw.getD (t + 1) 0) ""
        = col.getD (rw.getD (t + 1) 0) "" := ihge _ (Nat.le_of_lt hab)
    have hv1 : (col.getD (rw.getD (t + 1) 0) "").data.length = 1 :=
      hchar (t + 1) (Nat.succ_pos t) ht
    have hstep1 : ∀ c : List String, fillStep rw c (t + 1)
        = setSlice c (rw.getD t 0 + 1) (rw.getD (t + 1) 0)
            (pyCharCells (strRepeat (c.getD (rw.getD (t + 1) 0) "")
              (rw.getD (t + 1) 0 - (rw.getD t 0 + 1)))) := by
      intro c
      unfold fillStep
      rw [Nat.add_sub_cancel]
    have hstep : (List.range' 1 (t + 1)).foldl (fillStep rw) col
        = setSlice ((List.range' 1 t).foldl (fillStep rw) col)
            (rw.getD t 0 + 1) (rw.getD (t + 1) 0)
            (List.replicate (rw.getD (t + 1) 0 - (rw.getD t 0 + 1))
              (col.getD (rw.getD (t + 1) 0) "")) := by
      rw [hconcat, List.foldl_append, List.foldl_cons, List.foldl_nil, hstep1,
        hread, pyCharCells_strRepeat_single _ hv1]
    have h1b : rw.getD t 0 + 1 ≤ rw.getD (t + 1) 0 := hab
    have hbc : rw.getD (t + 1) 0 ≤ ((List.range' 1 t).foldl (fillStep rw) col).length := by
      rw [ihlen]; exact Nat.le_of_lt hbl
    have hrl : (List.replicate (rw.getD (t + 1) 0 - (rw.getD t 0 + 1))
        (col.getD (rw.getD (t + 1) 0) "")).length
        = rw.getD (t + 1) 0 - (rw.getD t 0 + 1) := List.length_replicate _ _
    refine ⟨?_, ?_, ?_⟩
    · rw [hstep, setSlice_length _ _ _ _ h1b hbc hrl, ihlen]
    · intro j hj
      rw [hstep, setSlice_getD_ge _ _ _ _ _ _ h1b hbc hj hrl]
      exact ihge j (Nat.le_trans (Nat.le_of_lt hab) hj)
    · intro k hk j hj1 hj2
      rcases Nat.lt_succ_iff_lt_or_eq.mp hk with hkt | hkeq
      · have hk1t : rw.getD (k + 1) 0 ≤ rw.getD t 0 := by
          rcases Nat.lt_or_ge (k + 1) t with h | h
          · exact Nat.le_of_lt (hmono _ _ h htlt)
          · have hkt1 : k + 1 = t := by omega
            rw [hkt1]
        rw [hstep, setSlice_getD_lt _ _ _ _ _ _ h1b hbc (by omega)]
        exact ihgap k hkt j hj1 hj2
      · subst hkeq
        rw [hstep,
          setSlice_getD_mid _ _ _ _ _ _ h1b hbc (by omega) hj2 hrl,
          getD_replicate_lt _ _ _ _ (by omega)]

/-- Claim C1 (amended): in `text_to_rcsv`'s block-fill (Policy B), the
non-null positions include the header cell, and — provided every
non-null data cell of the column is a single character (multi-character
values trigger the string-repetition slip recorded under C4, which
shifts the column) — every run of null cells lying strictly between two
consecutive non-null positions, the run between the header and the first
non-null data value included, is overwritten with the value at the later
of the two positions; the trailing truncation then leaves `len - 2`
cells.  In particular the fill-block column
`["NAME","NULL","A","NULL","NULL","B"]` ends as `["NAME","A","A","B"]`:
the rows between `"A"` and `"B"` hold `"B"`, and the row before `"A"`
holds `"A"`, not `"NULL"`. -/
theorem fillColumn_block_fill_spec (fill_block : List String) (col : List String)
    (hA : ¬((rowsWithVals col).length = 2 ∧
      ((rowsWithVals col).getD 1 0 = col.length - 1 ∨
       (rowsWithVals col).getD 1 0 = col.length - 2)))
    (hB : fill_block.any (fun h => strContains (col.headD "") h) = true)
    (hchar : ∀ i, i < col.length → 0 < i → col.getD i "" ≠ "NULL" →
      (col.getD i "").data.length = 1)
    (k : Nat) (hk : k + 1 < (rowsWithVals col).length)
    (j : Nat) (hj1 : (rowsWithVals col).getD k 0 < j)
    (hj2 : j < (rowsWithVals col).getD (k + 1) 0) :
    (fillColumn fill_block col).length = col.length - 2 ∧
    (j < col.length - 2 →
      (fillColumn fill_block col).getD j ""
        = col.getD ((rowsWithVals col).getD (k + 1) 0) "") ∧
    fillColumn ["NAME"] ["NAME", "NULL", "A", "NULL", "NULL", "B"]
      = ["NAME", "A", "A", "B"] := by
  have hchar' : ∀ a, 0 < a → a < (rowsWithVals col).length →
      (col.getD ((rowsWithVals col).getD a 0) "").data.length = 1 := by
    intro a ha0 halen
    have hpos : 0 < (rowsWithVals col).getD a 0 := by
      have h0a := rowsWithVals_mono col 0 a ha0 halen
      omega
    exact hchar _ (rowsWithVals_lt_length col a halen) hpos (rowsWithVals_ne_null col a halen)
  have hlenpos : 0 < (rowsWithVals col).length := by omega
  obtain ⟨mlen, mge, mgap⟩ :=
    fillStep_foldl_spec col (rowsWithVals col) (rowsWithVals_mono col)
      (rowsWithVals_lt_length col) hchar' ((rowsWithVals col).length - 1) (by omega)
  have hfb : fillBlockLoop (rowsWithVals col) col
      = (List.range' 1 ((rowsWithVals col).length - 1)).foldl
          (fillStep (rowsWithVals col)) col :=
    fillBlockLoop_eq_foldl _ _
  have hL : (fillBlockLoop (rowsWithVals col) col).length = col.length := by
    rw [hfb]; exact mlen
  have hroute := fillColumn_eq_blockfill fill_block col hA hB
  refine ⟨?_, ?_, by decide⟩
  · rw [hroute, List.length_take, hL]
    omega
  · intro hjlt
    rw [hroute, getD_take_lt _ _ _ _ (by rw [hL]; exact hjlt), hfb]
    exact mgap k (by omega) j hj1 hj2

/-- Witness for C1 at the claim's own column: the gap row 3 between
`"A"` (position 2) and `"B"` (position 5) ends holding `"B"`, the
truncated column has 4 cells, and the whole column is
`["NAME","A","A","B"]`. -/
theorem fillColumn_block_fill_spec_witness :
    (fillColumn ["NAME"] ["NAME", "NULL", "A", "NULL", "NULL", "B"]).length = 4 ∧
    (fillColumn ["NAME"] ["NAME", "NULL", "A", "NULL", "NULL", "B"]).getD 3 "" = "B" ∧
    fillColumn ["NAME"] ["NAME", "NULL", "A", "NULL", "NULL", "B"]
      = ["NAME", "A", "A", "B"] := by
  have h := fillColumn_block_fill_spec ["NAME"] ["NAME", "NULL", "A", "NULL", "NULL", "B"]
    (by decide) (by decide) (by decide) 1 (by decide) 3 (by decide) (by decide)
  exact ⟨h.1, h.2.1 (by decide), h.2.2⟩

/-! ### Claims C2 and C3 — `_merge_lists` -/

/-- Claim C2 is false as stated: the `"all_null"` merge of
`["NULL","X","NULL"]` and `["Y","NULL","Z"]` is not `["NULL","X","NULL"]`
— row 1 is nulled because the second source column is `"NULL"` there. -/
theorem merge_all_null_example_ne_claim :
    merge_lists [["NULL", "X", "NULL"], ["Y", "NULL", "Z"]] "all_null"
      ≠ ["NULL", "X", "NULL"] := by
  decide

/-- Claim C2 (amended): merging `["NULL","X","NULL"]` and
`["Y","NULL","Z"]` with `_merge_lists` under `"all_null"` returns
`["NULL","NULL","NULL"]` — a row of the result is `"NULL"` whenever any
contributing source column is `"NULL"` at that row. -/
theorem merge_all_null_example :
    merge_lists [["NULL", "X", "NULL"], ["Y", "NULL", "Z"]] "all_null"
      = ["NULL", "NULL", "NULL"] := by
  decide

/-! ### Claim C4 — column-length invariant -/

/-- Claim C4 fails on the code: Policy B's line 244 writes
`col[rows_w_vals[null_row]] * n_rows_to_fill` — *string* repetition, not
the `[·] * n` list repetition used by Policy A at line 238 — so slice
assignment splices in one cell per character.  On a table whose columns
all have 5 cells, with `fill_block` fragment `"NAME"`, the column
`["NAME","NULL","AB","NULL","X"]` ends with 7 cells (the two-character
value `"AB"` is split into `"A","B"` and shifts the rest) while the
unmatched column `["OTHER","P","NULL","NULL","Q"]` ends with 3, so the
fill stage breaks the equal-column-length invariant. -/
theorem fillStage_breaks_uniform_lengths :
    uniformLens [["NAME", "NULL", "AB", "NULL", "X"],
                 ["OTHER", "P", "NULL", "NULL", "Q"]] = true ∧
    uniformLens (fillStage ["NAME"]
      [["NAME", "NULL", "AB", "NULL", "X"],
       ["OTHER", "P", "NULL", "NULL", "Q"]]) = false ∧
    fillColumn ["NAME"] ["NAME", "NULL", "AB", "NULL", "X"]
      = ["NAME", "A", "B", "N", "U", "L", "L"] := by
  decide

/-! ### Claim C5 — single-trial round trip of `text_to_csv` -/

/-- Claim C5 is false as stated: a raw log with exactly one
start/end block containing the single field line `"name: value"` does
not produce the one-header-one-data-row table `[["name"],["value"]]`. -/
theorem text_to_csv_single_trial_ne_claim :
    text_to_csv_matrix ["*** LogFrame Start ***", "name: value", "*** LogFrame End ***"]
      ≠ .ok [["name"], ["value"]] := by
  decide

/-- Claim C5 (amended): for a raw log with exactly one block holding the
single field line `"name: value"`, `text_to_csv` writes an *empty* table:
each column has 2 cells (header + one data row) and the trailing
truncation `col[:len(col)-2]` removes both, leaving nothing. -/
theorem text_to_csv_single_trial_empty :
    text_to_csv_matrix ["*** LogFrame Start ***", "name: value", "*** LogFrame End ***"]
      = .ok [] := by
  decide

/-- Reading position `i < n` of `(List.range n).map f` yields `f i`. -/
theorem getD_map_range (f : Nat → α) (n i : Nat) (d : α) (hi : i < n) :
    ((List.range n).map f).getD i d = f i := by
  simp [List.getD_eq_getElem?_getD, List.getElem?_range hi]

/-- One merge pass keeps the accumulated row count. -/
theorem merge_step_length (opt : String) (m c : List String) :
    (merge_step opt m c).length = m.length := by
  unfold merge_step
  split
  · simp
  · split
    · simp
    · rfl

/-- Any number of merge passes keeps the accumulated row count. -/
theorem foldl_merge_length (opt : String) (ls : List (List String)) (acc : List String) :
    (ls.foldl (merge_step opt) acc).length = acc.length := by
  induction ls generalizing acc with
  | nil => rfl
  | cons c ls ih => rw [List.foldl_cons, ih, merge_step_length]

/-- `getD` after consing onto the front of the `getLast?` source. -/
theorem getLast?_getD_cons : ∀ (l : List α) (a d : α),
    ((a :: l).getLast?).getD d = (l.getLast?).getD a
  | [], _, _ => rfl
  | b :: t, a, d => by
    rw [List.getLast?_cons_cons]
    exact (getLast?_getD_cons t b d).trans (getLast?_getD_cons t b a).symm

/-- Row `i` after folding the `"all_else"` pass over the columns `ls`
starting from `acc`: the last column of `ls` that is non-null at `i`
wins; when none is, the accumulated value stands. -/
theorem foldl_merge_else (ls : List (List String)) (acc : List String) (i : Nat)
    (hi : i < acc.length) :
    (ls.foldl (merge_step "all_else") acc).getD i "" =
      ((ls.filterMap
        (fun c => if c.getD i "" = "NULL" then none else some (c.getD i ""))).getLast?).getD
        (acc.getD i "") := by
  induction ls generalizing acc with
  | nil => rfl
  | cons c ls ih =>
    have hlen : i < (merge_step "all_else" acc c).length := by
      rw [merge_step_length]; exact hi
    have hstep : (merge_step "all_else" acc c).getD i "" =
        if c.getD i "" = "NULL" then acc.getD i "" else c.getD i "" := by
      unfold merge_step
      rw [if_neg (by decide), if_pos rfl, getD_map_range _ _ _ _ hi]
      by_cases hc : c.getD i "" = "NULL"
      · simp [hc]
      · simp [hc]
    rw [List.foldl_cons, ih _ hlen, hstep]
    by_cases hc : c.getD i "" = "NULL"
    · rw [if_pos hc,
        @List.filterMap_cons_none (List String) String
          (fun c => if c.getD i "" = "NULL" then none else some (c.getD i "")) c ls
          (if_pos hc)]
    · rw [if_neg hc,
        @List.filterMap_cons_some (List String) String
          (fun c => if c.getD i "" = "NULL" then none else some (c.getD i "")) c ls
          (c.getD i "") (if_neg hc),
        getLast?_getD_cons]

/-- Claim C3: for a non-empty list of equal-length source columns,
`_merge_lists` under `"all_else"` returns a column of the same length
whose value at each row is the value of the *last* source column that is
not `"NULL"` at that row, falling back to the first column's value when
every source is null there; in particular merging `["NULL","X","NULL"]`
and `["Y","NULL","Z"]` yields `["Y","X","Z"]`. -/
theorem merge_all_else_spec (lists : List (List String)) (n : Nat)
    (hne : lists ≠ []) (hlen : ∀ c ∈ lists, c.length = n) (i : Nat) (hi : i < n) :
    (merge_lists lists "all_else").length = n ∧
    (merge_lists lists "all_else").getD i "" =
      (lastNonNullAt lists i).getD ((lists.headD []).getD i "") ∧
    merge_lists [["NULL", "X", "NULL"], ["Y", "NULL", "Z"]] "all_else" = ["Y", "X", "Z"] := by
  obtain ⟨c, rest, rfl⟩ : ∃ c rest, lists = c :: rest := by
    cases lists with
    | nil => exact absurd rfl hne
    | cons c rest => exact ⟨c, rest, rfl⟩
  have hc : c.length = n := hlen c (List.mem_cons_self c rest)
  refine ⟨?_, ?_, by decide⟩
  · rw [merge_lists]
    simp only [List.headD_cons]
    rw [foldl_merge_length, hc]
  · rw [merge_lists, lastNonNullAt]
    simp only [List.headD_cons]
    exact foldl_merge_else (c :: rest) c i (by rw [hc]; exact hi)

/-- Witness for C3 at the claim's own concrete input. -/
theorem merge_all_else_spec_witness :
    (merge_lists [["NULL", "X", "NULL"], ["Y", "NULL", "Z"]] "all_else").getD 1 "" =
      (lastNonNullAt [["NULL", "X", "NULL"], ["Y", "NULL", "Z"]] 1).getD
        (([["NULL", "X", "NULL"], ["Y", "NULL", "Z"]].headD []).getD 1 "") :=
  (merge_all_else_spec [["NULL", "X", "NULL"], ["Y", "NULL", "Z"]] 3 (by decide)
    (by decide) 1 (by decide)).2.1

/-- Popping at a successor index keeps the head. -/
theorem popAt_cons_succ (y : α) (M : List α) (i : Nat) :
    popAt (y :: M) (i + 1) = y :: popAt M i := rfl

/-- Folding pops whose indices were all shifted by one leaves the head in
place and acts on the tail. -/
theorem foldl_popAt_map_succ (ds : List Nat) (y : α) (M : List α) :
    (ds.map Nat.succ).foldl (fun acc i => popAt acc i) (y :: M) =
      y :: ds.foldl (fun acc i => popAt acc i) M := by
  induction ds generalizing M with
  | nil => rfl
  | cons d ds ih =>
    simp only [List.map_cons, List.foldl_cons]
    rw [show popAt (y :: M) (Nat.succ d) = y :: popAt M d from rfl]
    exact ih (popAt M d)

/-- Structure of the descending null-index list of a cons: the tail's
indices shifted up, followed by `0` when the head cell is null. -/
theorem null_index_cons (x : String) (m : List String) :
    null_index (x :: m) =
      (null_index m).map Nat.succ ++ (if x == "NULL" then [0] else []) := by
  unfold null_index
  rw [List.length_cons, List.range_succ_eq_map]
  have hcomp : ((fun i => (x :: m).getD i "" == "NULL") ∘ Nat.succ)
      = (fun i => m.getD i "" == "NULL") := by
    funext i; rfl
  cases hx : (x == "NULL") with
  | true =>
    rw [@List.filter_cons_of_pos _ (fun i => (x :: m).getD i "" == "NULL") 0
        (List.map Nat.succ (List.range m.length)) hx,
      List.filter_map, hcomp, List.reverse_cons, ← List.map_reverse]
    simp
  | false =>
    rw [@List.filter_cons_of_neg _ (fun i => (x :: m).getD i "" == "NULL") 0
        (List.map Nat.succ (List.range m.length)) (by simp [hx]),
      List.filter_map, hcomp, ← List.map_reverse]
    simp

/-- Removing the descending null indices from a same-length matrix keeps
exactly the rows whose indicator cell is not `"NULL"`, in order. -/
theorem pruneRows_eq_filter (M : List α) (m : List String) (h : M.length = m.length) :
    pruneRows M m = ((M.zip m).filter (fun p => p.2 != "NULL")).map Prod.fst := by
  induction m generalizing M with
  | nil =>
    have hM : M = [] := List.eq_nil_of_length_eq_zero (by simpa using h)
    subst hM; rfl
  | cons x m ih =>
    obtain ⟨y, M', rfl⟩ : ∃ y M', M = y :: M' := by
      cases M with
      | nil => simp at h
      | cons y M' => exact ⟨y, M', rfl⟩
    have hlen' : M'.length = m.length := by simpa using h
    unfold pruneRows
    rw [null_index_cons, List.foldl_append, foldl_popAt_map_succ]
    cases hx : (x == "NULL") with
    | true =>
      rw [if_pos rfl, List.foldl_cons, List.foldl_nil]
      rw [show popAt (y :: List.foldl (fun acc i => popAt acc i) M' (null_index m)) 0
          = List.foldl (fun acc i => popAt acc i) M' (null_index m) from rfl]
      rw [show List.foldl (fun acc i => popAt acc i) M' (null_index m) = pruneRows M' m
          from rfl]
      rw [ih M' hlen', List.zip_cons_cons,
        List.filter_cons_of_neg (by simp [bne, hx])]
    | false =>
      rw [if_neg (by simp), List.foldl_nil]
      rw [show List.foldl (fun acc i => popAt acc i) M' (null_index m) = pruneRows M' m
          from rfl]
      rw [ih M' hlen', List.zip_cons_cons,
        List.filter_cons_of_pos (by simp [bne, hx]), List.map_cons]

/-- Claim C7: in `text_to_rcsv` (lines 284-291), the rows popped from the
output matrix are exactly those whose `"all_null"` merge of the null-check
columns equals the null sentinel, and the surviving rows keep their
original relative order: the pruning equals an order-preserving filter on
the merged indicator. -/
theorem pruneRows_merge_spec (M : List (List String)) (nulls : List (List String))
    (h : M.length = (merge_lists nulls "all_null").length) :
    pruneRows M (merge_lists nulls "all_null") =
      ((M.zip (merge_lists nulls "all_null")).filter (fun p => p.2 != "NULL")).map Prod.fst :=
  pruneRows_eq_filter M (merge_lists nulls "all_null") h

/-- Witness for C7: a three-row matrix pruned over a merged indicator
that is null exactly at row 1. -/
theorem pruneRows_merge_spec_witness :
    pruneRows [["h1"], ["r1"], ["r2"]] (merge_lists [["h1", "NULL", "ok"]] "all_null") =
      (([["h1"], ["r1"], ["r2"]].zip (merge_lists [["h1", "NULL", "ok"]] "all_null")).filter
        (fun p => p.2 != "NULL")).map Prod.fst :=
  pruneRows_merge_spec [["h1"], ["r1"], ["r2"]] [["h1", "NULL", "ok"]] (by decide)

/-- Claim C6 is false as stated: an input with no marker lines at all has
equal (zero) start and end counts and is vacuously correctly nested, yet
the marker validation raises `IndexError` instead of producing zero
blocks (see C10). -/
theorem segment_no_markers_not_ok :
    wellNested (idxsOf startMarker ["hello"]) (idxsOf endMarker ["hello"]) ∧
    segment ["hello"] = .error .indexError := by
  constructor
  · exact ⟨rfl, by decide, by decide⟩
  · decide

/-- Claim C6 (amended): the marker validation shared by `text_to_csv` and
`text_to_rcsv` fails with the format error (`ValueError`) when the counts
of `"*** LogFrame Start ***"` and `"*** LogFrame End ***"` lines differ,
and likewise when the first start position is not strictly below the
first end position; for any input with *at least one* start marker and
equal, correctly nested markers it instead produces one block per start
marker, each block the slice of lines strictly between the corresponding
start/end pair (markers excluded).  (With zero markers it raises
`IndexError` instead — see C10.) -/
theorem segment_spec (lines : List String) :
    ((idxsOf startMarker lines).length ≠ (idxsOf endMarker lines).length →
      segment lines = .error (.valueError "LogFrame Starts and Ends do not match up.")) ∧
    (∀ s0 st e0 et, idxsOf startMarker lines = s0 :: st → idxsOf endMarker lines = e0 :: et →
      e0 ≤ s0 →
      segment lines = .error (.valueError "LogFrame Starts and Ends do not match up.")) ∧
    (wellNested (idxsOf startMarker lines) (idxsOf endMarker lines) →
      idxsOf startMarker lines ≠ [] →
      segment lines = .ok (((idxsOf startMarker lines).zip (idxsOf endMarker lines)).map
        (fun p => (lines.drop (p.1 + 1)).take (p.2 - (p.1 + 1))))) := by
  refine ⟨?_, ?_, ?_⟩
  · intro h
    unfold segment
    rw [if_pos h]
  · intro s0 st e0 et hs he hle
    by_cases hl : (idxsOf startMarker lines).length ≠ (idxsOf endMarker lines).length
    · unfold segment
      rw [if_pos hl]
    · unfold segment
      rw [if_neg hl, hs, he]
      show (if e0 ≤ s0 then
          (Except.error (PyError.valueError "LogFrame Starts and Ends do not match up.") :
            Except PyError (List (List String)))
        else _) = _
      rw [if_pos hle]
  · rintro ⟨hlen, hfst, -⟩ hne
    obtain ⟨s0, st, hs⟩ : ∃ s0 st, idxsOf startMarker lines = s0 :: st := by
      cases hcase : idxsOf startMarker lines with
      | nil => exact absurd hcase hne
      | cons s0 st => exact ⟨s0, st, rfl⟩
    obtain ⟨e0, et, he⟩ : ∃ e0 et, idxsOf endMarker lines = e0 :: et := by
      cases hcase : idxsOf endMarker lines with
      | nil => rw [hcase] at hlen; rw [hs] at hlen; simp at hlen
      | cons e0 et => exact ⟨e0, et, rfl⟩
    have hlt : s0 < e0 := by
      have := hfst 0 (by rw [hs]; simp)
      rw [hs, he] at this
      simpa using this
    unfold segment
    rw [if_neg (by simp [hlen]), hs, he]
    show (if e0 ≤ s0 then _ else
        Except.ok (((s0 :: st).zip (e0 :: et)).map
          (fun p => (lines.drop (p.1 + 1)).take (p.2 - (p.1 + 1))))) = _
    rw [if_neg (by omega)]

/-- Witness for C6 at a one-block input. -/
theorem segment_spec_witness :
    segment ["*** LogFrame Start ***", "a: b", "*** LogFrame End ***"] = .ok [["a: b"]] := by
  have h := (segment_spec ["*** LogFrame Start ***", "a: b", "*** LogFrame End ***"]).2.2
    ⟨by decide, by decide, by decide⟩ (by decide)
  exact h.trans (by decide)

/-- Claim C8 is false as stated for filenames that merely *end* in
`".csv"`: `os.path.splitext` gives the dotfile `".csv"` no extension
(the only dot starts its basename), so `_det_file_type` rejects it even
though it ends in `".csv"`. -/
theorem det_file_type_dotfile_rejected :
    (".csv" : String) = "" ++ ".csv" ∧
    det_file_type ".csv" = .error (.valueError "Input file name is not .csv or .txt.") := by
  exact ⟨rfl, by decide⟩

/-- Claim C8 (amended): `_det_file_type` returns delimiter `","` with 0
header lines to remove for every filename whose `os.path.splitext`
extension is `".csv"` (a filename ending in `".csv"` with some non-dot
character before the final dot in its basename), delimiter `"\t"` with 3
header lines for every filename whose extension is `".txt"`, and fails
with a `ValueError` for every other extension — the empty filename and
extensionless dotfiles such as `".csv"` itself included. -/
theorem det_file_type_spec (s : String) :
    ((splitext s).2 = ".csv" → det_file_type s = .ok (",", 0)) ∧
    ((splitext s).2 = ".txt" → det_file_type s = .ok ("\t", 3)) ∧
    ((splitext s).2 ≠ ".csv" → (splitext s).2 ≠ ".txt" →
      ∃ msg, det_file_type s = .error (.valueError msg)) := by
  refine ⟨?_, ?_, ?_⟩
  · intro h
    unfold det_file_type
    rw [if_pos h]
  · intro h
    unfold det_file_type
    rw [if_neg (by rw [h]; decide), if_pos h]
  · intro h1 h2
    unfold det_file_type
    rw [if_neg h1, if_neg h2]
    by_cases hlen : s.length = 0
    · exact ⟨_, by rw [if_pos hlen]⟩
    · exact ⟨_, by rw [if_neg hlen]⟩

/-- Witness for C8 on `"a.csv"`, `"b.txt"` and the extensionless `"x"`. -/
theorem det_file_type_spec_witness :
    det_file_type "a.csv" = .ok (",", 0) ∧
    det_file_type "b.txt" = .ok ("\t", 3) ∧
    ∃ msg, det_file_type "x" = .error (.valueError msg) :=
  ⟨(det_file_type_spec "a.csv").1 (by decide),
   (det_file_type_spec "b.txt").2.1 (by decide),
   (det_file_type_spec "x").2.2 (by decide) (by decide)⟩

/-- Absent values have no index. -/
theorem list_index_eq_none {row : List String} {v : String} (h : v ∉ row) :
    list_index row v = none := by
  induction row with
  | nil => rfl
  | cons a t ih =>
    have hne : ¬(a = v) := by
      intro hav
      exact h (by rw [← hav]; exact List.mem_cons_self a t)
    unfold list_index
    rw [if_neg hne, ih (fun hm => h (List.mem_cons_of_mem a hm))]
    rfl

/-- The reduced path fails hard: some desired header being absent from
the renamed header row makes the whole lookup comprehension raise. -/
theorem header_index_rcsv_error {row hl : List String} {h : String}
    (hmem : h ∈ hl) (habs : h ∉ row) :
    ∃ e, header_index_rcsv row hl = .error e := by
  induction hl with
  | nil => cases hmem
  | cons a t ih =>
    unfold header_index_rcsv
    by_cases ha : list_index row a = none
    · rw [ha]
      exact ⟨_, rfl⟩
    · obtain ⟨i, hi⟩ := Option.ne_none_iff_exists'.mp ha
      rw [hi]
      have hht : h ∈ t := by
        rcases List.mem_cons.mp hmem with rfl | hht
        · rw [list_index_eq_none habs] at hi
          cases hi
        · exact hht
      obtain ⟨e, he⟩ := ih hht
      rw [he]
      exact ⟨e, rfl⟩

/-- The simple path merely omits: with the missing header filtered out of
the desired list, `_try_index`-based selection returns the same indices. -/
theorem header_index_etext_omits {row : List String} {h : String} (habs : h ∉ row)
    (hl : List String) :
    header_index_etext row hl = header_index_etext row (hl.filter (fun x => x != h)) := by
  induction hl with
  | nil => rfl
  | cons a t ih =>
    show (a :: t).filterMap (fun hed => try_index row hed) =
      ((a :: t).filter (fun x => x != h)).filterMap (fun hed => try_index row hed)
    by_cases hah : a = h
    · subst hah
      rw [List.filter_cons_of_neg (by simp),
        @List.filterMap_cons_none String Nat (fun hed => try_index row hed) a t
          (list_index_eq_none habs)]
      exact ih
    · rw [List.filter_cons_of_pos (by simp [bne, hah])]
      cases hti : try_index row a with
      | none =>
        rw [@List.filterMap_cons_none String Nat (fun hed => try_index row hed) a t hti,
          @List.filterMap_cons_none String Nat (fun hed => try_index row hed) a
            (t.filter (fun x => x != h)) hti]
        exact ih
      | some i =>
        rw [@List.filterMap_cons_some String Nat (fun hed => try_index row hed) a t i hti,
          @List.filterMap_cons_some String Nat (fun hed => try_index row hed) a
            (t.filter (fun x => x != h)) i hti]
        rw [show t.filterMap (fun hed => try_index row hed)
            = header_index_etext row t from rfl, ih]
        rfl

/-- Claim C9: when a desired header is absent from the renamed header
row, `text_to_rcsv`'s lookup (line 259) raises (no column is skipped),
while `etext_to_rcsv`'s `_try_index`-based selection (lines 56-57) just
omits that column and continues: its result equals the selection over the
desired list with the missing name removed.  (`_try_index` also prints
the missing name — console output is not modelled.) -/
theorem lookup_asymmetry (row hl : List String) (h : String)
    (hmem : h ∈ hl) (habs : h ∉ row) :
    (∃ e, header_index_rcsv row hl = .error e) ∧
    header_index_etext row hl = header_index_etext row (hl.filter (fun x => x != h)) :=
  ⟨header_index_rcsv_error hmem habs, header_index_etext_omits habs hl⟩

/-- Witness for C9: desired headers `["A","Z"]` against header row
`["A","B"]` with `"Z"` missing. -/
theorem lookup_asymmetry_witness :
    (∃ e, header_index_rcsv ["A", "B"] ["A", "Z"] = .error e) ∧
    header_index_etext ["A", "B"] ["A", "Z"] =
      header_index_etext ["A", "B"] (["A", "Z"].filter (fun x => x != "Z")) :=
  lookup_asymmetry ["A", "B"] ["A", "Z"] "Z" (by decide) (by decide)

/-- No line matching `target` means no recorded positions. -/
theorem idxsOf_eq_nil {target : String} {L : List String}
    (h : ∀ l ∈ L, l ≠ target) : idxsOf target L = [] := by
  unfold idxsOf
  rw [List.filter_eq_nil_iff]
  intro i hi
  rw [List.mem_range] at hi
  have hmem : L[i]?.getD "" ∈ L := by
    rw [List.getElem?_eq_getElem hi]
    exact List.getElem_mem hi
  simp [h _ hmem]

/-- Claim C10: on any input none of whose sanitized lines is a LogFrame
marker (equal start and end counts, both zero), the marker validation of
`text_to_csv` (and the identical lines 192-197 of `text_to_rcsv`,
modelled by the shared `segment`) subscripts the empty `start_index`
list, so the conversion fails with `IndexError` — neither the documented
format `ValueError` nor any block production is reached. -/
theorem no_markers_index_error (lines : List String)
    (h : ∀ l ∈ lines, strip l ≠ startMarker ∧ strip l ≠ endMarker) :
    segment (lines.map strip) = .error .indexError ∧
    text_to_csv_matrix lines = .error .indexError := by
  have hs : idxsOf startMarker (lines.map strip) = [] := by
    apply idxsOf_eq_nil
    intro l hl
    obtain ⟨l0, hl0, rfl⟩ := List.mem_map.mp hl
    exact (h l0 hl0).1
  have he : idxsOf endMarker (lines.map strip) = [] := by
    apply idxsOf_eq_nil
    intro l hl
    obtain ⟨l0, hl0, rfl⟩ := List.mem_map.mp hl
    exact (h l0 hl0).2
  have hseg : segment (lines.map strip) = .error .indexError := by
    unfold segment
    rw [if_neg (by rw [hs, he]; simp), hs, he]
  refine ⟨hseg, ?_⟩
  unfold text_to_csv_matrix
  dsimp only
  rw [hseg]
  rfl

/-- Witness for C10 on the marker-free input `["hello"]`. -/
theorem no_markers_index_error_witness :
    segment (["hello"].map strip) = .error .indexError ∧
    text_to_csv_matrix ["hello"] = .error .indexError :=
  no_markers_index_error ["hello"] (by decide)

end ConvertEprime

